import Mathlib

/-!
# Package `sessions`: the session manager of `sessions/manager.go`

A shallow embedding of the manager (`NewManager`, `NewSessionID`, `New`, `Save`,
`Exists`, `Get`, `Destroy`) together with the parts of the Go runtime and of the
standard library its behaviour depends on:

* a Go `map` may be `nil`; reading a nil map finds nothing, `delete` on it does
  nothing, assigning into it panics;
* a `*Session` is `nil` or the address of an object in a heap of `Session` objects,
  so the map and the caller see the same object;
* an `http.ResponseWriter` is a reference (possibly `nil`) to the list of
  `Set-Cookie` header lines it has accumulated;
* a Go string is a Lean `String`, a byte is a natural number below 256.
-/

namespace Sessions

/-! ## Runtime and standard-library values -/

/-- An `error` value, identified by the message given to `errors.New`. -/
structure GoError where
  msg : String
deriving DecidableEq

/-- The error `http.ErrNoCookie`, returned by `Request.Cookie` when no cookie matches. -/
def ErrNoCookie : GoError := ⟨"http: named cookie not present"⟩

/-- The fields of `http.Cookie` that this package reads or writes. The other fields
(`Domain`, `Expires`, `MaxAge`, `Secure`, `HttpOnly`, `SameSite`, ...) are never
assigned by the package; at their zero values `Cookie.String` emits nothing for them. -/
structure Cookie where
  Name : String
  Value : String
  Path : String
deriving DecidableEq

/-- An incoming `http.Request`: `cookies` is what net/http parses out of its `Cookie`
header lines, in order; `id` stands for the rest of the request. -/
structure Request where
  id : Nat
  cookies : List Sessions.Cookie
deriving DecidableEq

/-- The result of a call that returns `(*Cookie, error)`. -/
inductive CookieResult where
  | ok (cookie : Sessions.Cookie)
  | err (e : GoError)
deriving DecidableEq

/-- The method `(*http.Request).Cookie`: the first cookie with the given name, or
`ErrNoCookie`; an empty name matches nothing. -/
def Request.Cookie (r : Request) (name : String) : CookieResult :=
  if name = "" then .err ErrNoCookie
  else
    match r.cookies.find? (fun c => decide (c.Name = name)) with
    | some c => .ok c
    | none => .err ErrNoCookie

/-- The token characters of net/http (`isToken`), by code point. -/
def isToken (c : Char) : Bool :=
  c.isAlphanum ||
    [33, 35, 36, 37, 38, 39, 42, 43, 45, 46, 94, 95, 96, 124, 126].contains c.toNat

/-- The check `isCookieNameValid` of net/http: non-empty and made of token characters. -/
def isCookieNameValid (raw : String) : Bool :=
  !raw.isEmpty && raw.toList.all isToken

/-- The predicate `validCookieValueByte` of net/http. -/
def validCookieValueByte (c : Char) : Bool :=
  decide (0x20 ≤ c.toNat) && decide (c.toNat < 0x7f) &&
    decide (c.toNat ≠ 34) && decide (c.toNat ≠ 59) && decide (c.toNat ≠ 92)

/-- The predicate `validCookiePathByte` of net/http. -/
def validCookiePathByte (c : Char) : Bool :=
  decide (0x20 ≤ c.toNat) && decide (c.toNat < 0x7f) && decide (c.toNat ≠ 59)

/-- The function `sanitizeCookieValue` of net/http: invalid bytes are dropped, and a
value holding a space or a comma is wrapped in double quotes. -/
def sanitizeCookieValue (v : String) : String :=
  let kept := v.toList.filter validCookieValueByte
  if kept.isEmpty then String.mk kept
  else if kept.any (fun c => decide (c.toNat = 32) || decide (c.toNat = 44)) then
    String.mk (Char.ofNat 34 :: kept ++ [Char.ofNat 34])
  else String.mk kept

/-- The function `sanitizeCookiePath` of net/http: invalid bytes are dropped. -/
def sanitizeCookiePath (v : String) : String :=
  String.mk (v.toList.filter validCookiePathByte)

/-- The method `(*http.Cookie).String` on the modelled fields: the `Set-Cookie` line,
or the empty string when the name is not a valid cookie name. -/
def Cookie.String (c : Sessions.Cookie) : String :=
  if isCookieNameValid c.Name then
    c.Name ++ "=" ++ sanitizeCookieValue c.Value ++
      (if c.Path.length > 0 then "; Path=" ++ sanitizeCookiePath c.Path else "")
  else ""

/-! ## `encoding/base64`, URL alphabet with padding -/

/-- The alphabet of `base64.URLEncoding`. -/
def encodeURL : String :=
  "ABCDEFGHIJKLMNOPQRSTUVWXYZabcdefghijklmnopqrstuvwxyz0123456789-_"

/-- The table lookup `enc.encode[i]`. -/
def encodeByte (i : Nat) : Char := encodeURL.toList.getD i 'A'

/-- The loop of `(*Encoding).Encode`: three source bytes become four characters,
and a remainder of one or two bytes is padded with `=`. -/
def encodeList : List Nat → List Char
  | b0 :: b1 :: b2 :: rest =>
    let val := b0 <<< 16 ||| b1 <<< 8 ||| b2
    encodeByte (val >>> 18 &&& 0x3F) :: encodeByte (val >>> 12 &&& 0x3F) ::
      encodeByte (val >>> 6 &&& 0x3F) :: encodeByte (val &&& 0x3F) :: encodeList rest
  | [b0, b1] =>
    let val := b0 <<< 16 ||| b1 <<< 8
    [encodeByte (val >>> 18 &&& 0x3F), encodeByte (val >>> 12 &&& 0x3F),
      encodeByte (val >>> 6 &&& 0x3F), '=']
  | [b0] =>
    let val := b0 <<< 16
    [encodeByte (val >>> 18 &&& 0x3F), encodeByte (val >>> 12 &&& 0x3F), '=', '=']
  | [] => []

/-- The call `base64.URLEncoding.EncodeToString(src)`. -/
def EncodeToString (src : List Nat) : String := String.mk (encodeList src)

/-- The inverse table of the URL alphabet: the six-bit value of a character. -/
def decodeByte (c : Char) : Option Nat :=
  let i := encodeURL.toList.indexOf c
  if i < 64 then some i else none

/-- Decoding of padded URL-safe base64 (RFC 4648): four characters give three bytes,
a final group may end in one or two `=`. -/
def decodeList : List Char → Option (List Nat)
  | [] => some []
  | [c0, c1, c2, c3] =>
    match decodeByte c0, decodeByte c1 with
    | some v0, some v1 =>
      if c2 = '=' then
        if c3 = '=' then some [((v0 <<< 18 ||| v1 <<< 12) >>> 16) &&& 0xFF] else none
      else
        match decodeByte c2 with
        | none => none
        | some v2 =>
          if c3 = '=' then
            let val := v0 <<< 18 ||| v1 <<< 12 ||| v2 <<< 6
            some [(val >>> 16) &&& 0xFF, (val >>> 8) &&& 0xFF]
          else
            match decodeByte c3 with
            | none => none
            | some v3 =>
              let val := v0 <<< 18 ||| v1 <<< 12 ||| v2 <<< 6 ||| v3
              some [(val >>> 16) &&& 0xFF, (val >>> 8) &&& 0xFF, val &&& 0xFF]
    | _, _ => none
  | c0 :: c1 :: c2 :: c3 :: rest =>
    match decodeByte c0, decodeByte c1, decodeByte c2, decodeByte c3, decodeList rest with
    | some v0, some v1, some v2, some v3, some tail =>
      let val := v0 <<< 18 ||| v1 <<< 12 ||| v2 <<< 6 ||| v3
      some (((val >>> 16) &&& 0xFF) :: ((val >>> 8) &&& 0xFF) :: (val &&& 0xFF) :: tail)
    | _, _, _, _, _ => none
  | _ => none

/-- The call `base64.URLEncoding.DecodeString(s)`, `none` on malformed input. -/
def DecodeString (s : String) : Option (List Nat) := decodeList s.toList

/-- The call `io.ReadFull(rand.Reader, b)` on a buffer of `n` bytes: `src` lists the
bytes the reader yields before it fails; the buffer is filled, or the call errs. -/
def ReadFull (src : List Nat) (n : Nat) : Option (List Nat) :=
  if n ≤ src.length then some (src.take n) else none

/-! ## The data model -/

/-- A dynamic value in an `interface{}` slot: a `*Session` (`none` is the nil pointer,
`some a` the address `a` of a session in the heap), or a value of any other type. -/
inductive Value where
  | session (p : Option Nat)
  | other (tag : Nat)
deriving DecidableEq

/-- Modelled from the spec: the `Session` type, declared in `session.go`, which the
repository does not contain. The spec (sections 3 and 6) gives it a cookie name, read
through `Name()`, and the fields `ID`, `request` and `writer`. Its back-reference to
the manager is left out, the state holding the single package-level manager. -/
structure Session where
  cookieName : String
  ID : String
  request : Option Request
  writer : Option Nat
deriving DecidableEq

/-- Modelled from the spec: the accessor `Name()` of `session.go`, the name of the
cookie under which the session identifier is kept client-side. -/
def Session.Name (s : Session) : String := s.cookieName

/-- The struct `Manager`: `database` is a `map[string]interface{}`, `none` being the
nil map and `some l` a made map with the entries `l`. -/
structure Manager where
  database : Option (List (String × Value))
deriving DecidableEq

/-- The memory the package works on: the package-level variable `mg`, the allocated
`Session` objects (a non-nil `*Session` is an index into `heap`), and the response
writers (a non-nil `http.ResponseWriter` is an index into `writers`, giving its
`Set-Cookie` lines). -/
structure State where
  mg : Manager
  heap : List Session
  writers : List (List String)
deriving DecidableEq

/-- How a call ends: it returns a value, or it panics; either way it leaves a state. -/
inductive Outcome (α : Type) where
  | returned (val : α) (σ : State)
  | panicked (reason : String) (σ : State)
deriving DecidableEq

/-- The state a call leaves behind. -/
def Outcome.state {α : Type} : Outcome α → State
  | .returned _ σ => σ
  | .panicked _ σ => σ

/-- The runtime panic of a nil pointer or nil interface dereference. -/
def nilDereference : String := "invalid memory address or nil pointer dereference"

/-- The runtime panic of an assignment into a nil map. -/
def nilMapAssignment : String := "assignment to entry in nil map"

/-- The runtime panic of a failed type assertion `x.(*Session)`. -/
def badConversion : String := "interface conversion: interface is not *sessions.Session"

/-! ## Map operations of the Go runtime -/

/-- The entry under key `k` of a made map. -/
def entryOf (k : String) : List (String × Value) → Option Value
  | [] => none
  | (k0, v0) :: rest => if k0 = k then some v0 else entryOf k rest

/-- The index expression `v, ok := m[k]`; a nil map has no entries. -/
def mapIndex (m : Option (List (String × Value))) (k : String) : Option Value :=
  match m with
  | none => none
  | some l => entryOf k l

/-- The assignment `m[k] = v` on a made map: overwrite in place, or add. -/
def mapAssign (k : String) (v : Value) : List (String × Value) → List (String × Value)
  | [] => [(k, v)]
  | (k0, v0) :: rest => if k0 = k then (k, v) :: rest else (k0, v0) :: mapAssign k v rest

/-- The entries left by `delete(m, k)` on a made map. -/
def removeKey (k : String) : List (String × Value) → List (String × Value)
  | [] => []
  | (k0, v0) :: rest => if k0 = k then removeKey k rest else (k0, v0) :: removeKey k rest

/-- The builtin `delete(m, k)`; on a nil map it does nothing. -/
def mapDelete (m : Option (List (String × Value))) (k : String) :
    Option (List (String × Value)) :=
  match m with
  | none => none
  | some l => some (removeKey k l)

/-- The keys of a map. -/
def mapKeys (m : Option (List (String × Value))) : List String :=
  match m with
  | none => []
  | some l => l.map Prod.fst

/-- A read through a `*Session`: `none` when the pointer cannot be dereferenced. -/
def State.deref (σ : State) (p : Option Nat) : Option Session :=
  match p with
  | none => none
  | some a => σ.heap[a]?

/-- An assignment through a `*Session`: `none` when the pointer cannot be dereferenced. -/
def State.update (σ : State) (p : Option Nat) (f : Session → Session) : Option State :=
  match p with
  | none => none
  | some a =>
    match σ.heap[a]? with
    | none => none
    | some s => some { σ with heap := σ.heap.set a (f s) }

/-- The function `http.SetCookie(w, cookie)`: when `cookie.String()` is not empty the
line is added to the `Set-Cookie` header of `w`; `none` when that needs a nil `w`. -/
def SetCookie (σ : State) (w : Option Nat) (cookie : Sessions.Cookie) : Option State :=
  let v := cookie.String
  if v ≠ "" then
    match w with
    | none => none
    | some i =>
      match σ.writers[i]? with
      | none => none
      | some lines => some { σ with writers := σ.writers.set i (lines ++ [v]) }
  else some σ

/-! ## The package -/

/-- The package-level declaration `var mg Manager`: the zero value, whose map is nil. -/
def mg : Manager := { database := none }

/-- The memory once the package is loaded: `mg` at its zero value, no session
allocated; `writers` are the response writers the server hands to handlers. -/
def packageInit (writers : List (List String)) : State :=
  { mg := mg, heap := [], writers := writers }

/-- The function `NewManager`: the address of `mg`; the methods below act on `σ.mg`. -/
def NewManager (σ : State) : Manager := σ.mg

/-- Modelled from the spec: the constructor `NewSession(m, cookieName)` of `session.go`,
absent from the repository: a new `Session` object for the manager, under the given
cookie name, with no identifier, request or writer yet. Returns a pointer to it. -/
def NewSession (σ : State) (cookieName : String) : Option Nat × State :=
  (some σ.heap.length,
    { σ with heap := σ.heap ++
        [{ cookieName := cookieName, ID := "", request := none, writer := none }] })

/-- The method `Manager.NewSessionID`: 64 random bytes in URL-safe base64, or the
empty string when the random source fails. -/
def Manager.NewSessionID (rnd : List Nat) : String :=
  match ReadFull rnd 64 with
  | none => ""
  | some b => EncodeToString b

/-- The method `Manager.Exists`. -/
def Manager.Exists (σ : State) (sessionID : String) : Bool :=
  (mapIndex σ.mg.database sessionID).isSome

/-- The method `Manager.New`, returning `(*Session, error)`. -/
def Manager.New (σ : State) (rnd : List Nat) (r : Request) (cookieName : String) :
    Outcome (Option Nat × Option GoError) :=
  if (match r.Cookie cookieName with
      | .ok cookie => Manager.Exists σ cookie.Value
      | .err _ => false) then
    .returned (none, some ⟨"sessionIDはすでに発行されています"⟩) σ
  else
    let (session, σ1) := NewSession σ cookieName
    match σ1.update session (fun s => { s with ID := Manager.NewSessionID rnd }) with
    | none => .panicked nilDereference σ1
    | some σ2 =>
      match σ2.update session (fun s => { s with request := some r }) with
      | none => .panicked nilDereference σ2
      | some σ3 => .returned (session, none) σ3

/-- The method `Manager.Save`, returning `error`. The arguments `r` and `w` are not
used by the body; the cookie goes to `session.writer`. -/
def Manager.Save (σ : State) (_r : Request) (_w : Option Nat) (session : Option Nat) :
    Outcome (Option GoError) :=
  match σ.deref session with
  | none => .panicked nilDereference σ
  | some s =>
    match σ.mg.database with
    | none => .panicked nilMapAssignment σ
    | some db =>
      let σ1 := { σ with mg := { database := some (mapAssign s.ID (.session session) db) } }
      let c : Sessions.Cookie := { Name := s.Name, Value := s.ID, Path := "/" }
      match SetCookie σ1 s.writer c with
      | none => .panicked nilDereference σ1
      | some σ2 => .returned none σ2

/-- The method `Manager.Get`, returning `(*Session, error)`. -/
def Manager.Get (σ : State) (r : Request) (cookieName : String) :
    Outcome (Option Nat × Option GoError) :=
  match r.Cookie cookieName with
  | .err e => .returned (none, some e) σ
  | .ok cookie =>
    let sessionID := cookie.Value
    match mapIndex σ.mg.database sessionID with
    | none => .returned (none, some ⟨"無効なセッションIDです"⟩) σ
    | some buffer =>
      match buffer with
      | .other _ => .panicked badConversion σ
      | .session session =>
        match σ.update session (fun s => { s with request := some r }) with
        | none => .panicked nilDereference σ
        | some σ1 => .returned (session, none) σ1

/-- The method `Manager.Destroy`. -/
def Manager.Destroy (σ : State) (sessionID : String) : State :=
  { σ with mg := { database := mapDelete σ.mg.database sessionID } }


/-! ## Predicates and sample data used in the statements -/

/-- Every entry of the store is a `*Session` that points to an allocated session. -/
def holdsOnlySessions (σ : State) : Bool :=
  match σ.mg.database with
  | none => true
  | some l =>
    l.all (fun kv =>
      match kv.2 with
      | .session p => (σ.deref p).isSome
      | .other _ => false)

/-- A cookie value that `sanitizeCookieValue` leaves as it is: only valid
cookie-value bytes, no space and no comma. -/
def plainCookieValue (v : String) : Bool :=
  v.toList.all validCookieValueByte && !v.toList.any (fun c => decide (c.toNat = 32) || decide (c.toNat = 44))

/-- A request that carries no cookie. -/
def bareRequest : Request := { id := 1, cookies := [] }

/-- A request that carries the cookie `name=value`. -/
def requestWith (name value : String) : Request :=
  { id := 2, cookies := [{ Name := name, Value := value, Path := "" }] }

/-- A block of 64 bytes, as the random source may deliver it. -/
def sampleBlock : List Nat := List.range 64

/-- A session under the cookie name `sid` with identifier `abc`, holding writer 1. -/
def sampleSession : Session :=
  { cookieName := "sid", ID := "abc", request := none, writer := some 1 }

/-- A state whose map is made and empty, with `sampleSession` allocated at address 0
and two response writers that carry no header yet. -/
def madeState : State :=
  { mg := { database := some [] }, heap := [sampleSession], writers := [[], []] }

/-- The same memory as `madeState`, with the map of `mg` still nil. -/
def nilMapState : State :=
  { mg := mg, heap := [sampleSession], writers := [[], []] }

/-- A state whose map is made, with a session allocated that has no writer. -/
def noWriterState : State :=
  { mg := { database := some [] },
    heap := [{ sampleSession with writer := none }], writers := [[], []] }

/-- A state whose store already lists the identifier encoding `sampleBlock`. -/
def collisionState : State :=
  { mg := { database := some [(EncodeToString sampleBlock, .session (some 0))] },
    heap := [{ sampleSession with ID := EncodeToString sampleBlock }], writers := [] }

/-- A state whose store lists the empty string as a key. -/
def emptyKeyState : State :=
  { mg := { database := some [("", .session (some 0))] },
    heap := [{ sampleSession with ID := "" }], writers := [] }

/-- A state whose store lists the key `abc`, bound to the session at address 0. -/
def storedState : State :=
  { mg := { database := some [("abc", .session (some 0))] },
    heap := [sampleSession], writers := [[], []] }


/-! ## Lemmas on the base64 encoding -/

/-- A bitwise or of a multiple of `2 ^ i` with a number below `2 ^ i` is their sum. -/
theorem or_eq_add_of_dvd (i a b : Nat) (hb : b < 2 ^ i) (ha : 2 ^ i ∣ a) : a ||| b = a + b := by
  obtain ⟨k, rfl⟩ := ha
  exact (Nat.mul_add_lt_is_or hb k).symm

/-- Masking with `0x3F` keeps the value modulo 64. -/
theorem and_63 (x : Nat) : x &&& 0x3F = x % 64 := Nat.and_pow_two_sub_one_eq_mod x 6

/-- Masking with `0xFF` keeps the value modulo 256. -/
theorem and_255 (x : Nat) : x &&& 0xFF = x % 256 := Nat.and_pow_two_sub_one_eq_mod x 8

/-- The 24-bit group built from two source bytes, in arithmetic form. -/
theorem pack2 (b0 b1 : Nat) (h1 : b1 < 256) :
    b0 <<< 16 ||| b1 <<< 8 = b0 * 65536 + b1 * 256 := by
  simp only [Nat.shiftLeft_eq]
  exact or_eq_add_of_dvd 16 _ _ (by omega) (by omega)

/-- The 24-bit group built from three source bytes, in arithmetic form. -/
theorem pack3 (b0 b1 b2 : Nat) (h1 : b1 < 256) (h2 : b2 < 256) :
    b0 <<< 16 ||| b1 <<< 8 ||| b2 = b0 * 65536 + b1 * 256 + b2 := by
  rw [pack2 b0 b1 h1]
  exact or_eq_add_of_dvd 8 _ _ (by omega) (by omega)

/-- Two six-bit values reassembled, in arithmetic form. -/
theorem unpack2 (v0 v1 : Nat) (h1 : v1 < 64) :
    v0 <<< 18 ||| v1 <<< 12 = v0 * 262144 + v1 * 4096 := by
  simp only [Nat.shiftLeft_eq]
  exact or_eq_add_of_dvd 18 _ _ (by omega) (by omega)

/-- Three six-bit values reassembled, in arithmetic form. -/
theorem unpack3 (v0 v1 v2 : Nat) (h1 : v1 < 64) (h2 : v2 < 64) :
    v0 <<< 18 ||| v1 <<< 12 ||| v2 <<< 6 = v0 * 262144 + v1 * 4096 + v2 * 64 := by
  rw [unpack2 v0 v1 h1, Nat.shiftLeft_eq]
  exact or_eq_add_of_dvd 12 _ _ (by omega) (by omega)

/-- Four six-bit values reassembled, in arithmetic form. -/
theorem unpack4 (v0 v1 v2 v3 : Nat) (h1 : v1 < 64) (h2 : v2 < 64) (h3 : v3 < 64) :
    v0 <<< 18 ||| v1 <<< 12 ||| v2 <<< 6 ||| v3 = v0 * 262144 + v1 * 4096 + v2 * 64 + v3 := by
  rw [unpack3 v0 v1 v2 h1 h2]
  exact or_eq_add_of_dvd 6 _ _ (by omega) (by omega)

/-- The inverse table undoes the alphabet lookup on every six-bit value. -/
theorem decodeByte_encodeByte (i : Nat) (h : i < 64) : decodeByte (encodeByte i) = some i := by
  have key : ∀ j : Fin 64, decodeByte (encodeByte j.val) = some j.val := by decide
  exact key ⟨i, h⟩

/-- The alphabet does not contain the padding character. -/
theorem encodeByte_ne_pad (i : Nat) : encodeByte i ≠ '=' := by
  by_cases h : i < 64
  · have key : ∀ j : Fin 64, encodeByte j.val ≠ '=' := by decide
    exact key ⟨i, h⟩
  · have : encodeByte i = 'A' := by
      unfold encodeByte
      exact List.getD_eq_default _ _ (by simpa [encodeURL] using h)
    rw [this]; decide

/-- Every character the lookup yields belongs to the URL alphabet. -/
theorem encodeByte_mem (i : Nat) : encodeByte i ∈ encodeURL.toList := by
  by_cases h : i < 64
  · have key : ∀ j : Fin 64, encodeByte j.val ∈ encodeURL.toList := by decide
    exact key ⟨i, h⟩
  · have : encodeByte i = 'A' := by
      unfold encodeByte
      exact List.getD_eq_default _ _ (by simpa [encodeURL] using h)
    rw [this]; decide


/-- A value masked with `0x3F` is a six-bit value. -/
theorem sextet_lt (x : Nat) : x &&& 0x3F < 64 := by
  rw [and_63]; omega

/-- Decoding the character of a masked value gives the masked value back. -/
theorem decode_sextet (x : Nat) : decodeByte (encodeByte (x &&& 0x3F)) = some (x &&& 0x3F) :=
  decodeByte_encodeByte _ (sextet_lt x)

/-- The padding character has no six-bit value. -/
theorem decodeByte_pad : decodeByte '=' = none := by decide

/-- Three bytes survive the split into four six-bit values and the reassembly. -/
theorem group3 (b0 b1 b2 : Nat) (h0 : b0 < 256) (h1 : b1 < 256) (h2 : b2 < 256) :
    let val := b0 <<< 16 ||| b1 <<< 8 ||| b2
    let out := (val >>> 18 &&& 0x3F) <<< 18 ||| (val >>> 12 &&& 0x3F) <<< 12 |||
      (val >>> 6 &&& 0x3F) <<< 6 ||| (val &&& 0x3F)
    (out >>> 16) &&& 0xFF = b0 ∧ (out >>> 8) &&& 0xFF = b1 ∧ out &&& 0xFF = b2 := by
  intro val out
  have hval : val = b0 * 65536 + b1 * 256 + b2 := pack3 b0 b1 b2 h1 h2
  have hout : out = (val >>> 18 &&& 0x3F) * 262144 + (val >>> 12 &&& 0x3F) * 4096 +
      (val >>> 6 &&& 0x3F) * 64 + (val &&& 0x3F) :=
    unpack4 _ _ _ _ (sextet_lt _) (sextet_lt _) (sextet_lt _)
  simp only [and_63, and_255, Nat.shiftRight_eq_div_pow] at hout ⊢
  omega

/-- Two bytes survive the split into three six-bit values and the reassembly. -/
theorem group2 (b0 b1 : Nat) (h0 : b0 < 256) (h1 : b1 < 256) :
    let val := b0 <<< 16 ||| b1 <<< 8
    let out := (val >>> 18 &&& 0x3F) <<< 18 ||| (val >>> 12 &&& 0x3F) <<< 12 |||
      (val >>> 6 &&& 0x3F) <<< 6
    (out >>> 16) &&& 0xFF = b0 ∧ (out >>> 8) &&& 0xFF = b1 := by
  intro val out
  have hval : val = b0 * 65536 + b1 * 256 := pack2 b0 b1 h1
  have hout : out = (val >>> 18 &&& 0x3F) * 262144 + (val >>> 12 &&& 0x3F) * 4096 +
      (val >>> 6 &&& 0x3F) * 64 :=
    unpack3 _ _ _ (sextet_lt _) (sextet_lt _)
  simp only [and_63, and_255, Nat.shiftRight_eq_div_pow] at hout ⊢
  omega

/-- One byte survives the split into two six-bit values and the reassembly. -/
theorem group1 (b0 : Nat) (h0 : b0 < 256) :
    let val := b0 <<< 16
    let out := (val >>> 18 &&& 0x3F) <<< 18 ||| (val >>> 12 &&& 0x3F) <<< 12
    (out >>> 16) &&& 0xFF = b0 := by
  intro val out
  have hval : val = b0 * 65536 := Nat.shiftLeft_eq b0 16
  have hout : out = (val >>> 18 &&& 0x3F) * 262144 + (val >>> 12 &&& 0x3F) * 4096 :=
    unpack2 _ _ (sextet_lt _)
  simp only [and_63, and_255, Nat.shiftRight_eq_div_pow] at hout ⊢
  omega

/-- Decoding inverts encoding on every list of bytes. -/
theorem decodeList_encodeList : ∀ (b : List Nat), (∀ x ∈ b, x < 256) →
    decodeList (encodeList b) = some b
  | [], _ => rfl
  | [b0], h => by
    have h0 : b0 < 256 := h b0 (by simp)
    simp only [encodeList, decodeList, decode_sextet, if_true]
    have g := group1 b0 h0
    simp only at g
    rw [g]
  | [b0, b1], h => by
    have h0 : b0 < 256 := h b0 (by simp)
    have h1 : b1 < 256 := h b1 (by simp)
    have g := group2 b0 b1 h0 h1
    simp only at g
    simp only [encodeList, decodeList, decode_sextet, if_true, encodeByte_ne_pad, if_false]
    rw [g.1, g.2]
  | b0 :: b1 :: b2 :: rest, h => by
    have h0 : b0 < 256 := h b0 (by simp)
    have h1 : b1 < 256 := h b1 (by simp)
    have h2 : b2 < 256 := h b2 (by simp)
    have ih := decodeList_encodeList rest (fun x hx => h x (by simp [hx]))
    have g := group3 b0 b1 b2 h0 h1 h2
    simp only at g
    simp only [encodeList]
    cases hrest : encodeList rest with
    | nil =>
      rw [hrest] at ih
      have hnil : rest = [] := by
        simp only [decodeList] at ih
        exact (Option.some.inj ih).symm
      subst hnil
      simp only [decodeList, decode_sextet, if_true, encodeByte_ne_pad, if_false]
      rw [g.1, g.2.1, g.2.2]
    | cons d ds =>
      rw [hrest] at ih
      simp only [decodeList, decode_sextet, ih]
      rw [g.1, g.2.1, g.2.2]

/-- The encoding of `n` bytes has `4 * ceil(n / 3)` characters. -/
theorem encodeList_length : ∀ (b : List Nat), (encodeList b).length = 4 * ((b.length + 2) / 3)
  | [] => rfl
  | [_] => by simp [encodeList]
  | [_, _] => by simp [encodeList]
  | _ :: _ :: _ :: rest => by
    simp only [encodeList, List.length_cons, encodeList_length rest]
    omega

/-- The encoding uses only characters of the URL alphabet and the padding `=`. -/
theorem encodeList_alphabet : ∀ (b : List Nat) (c : Char), c ∈ encodeList b →
    c ∈ encodeURL.toList ∨ c = '='
  | [], c, hc => by simp [encodeList] at hc
  | [_], c, hc => by
    simp only [encodeList, List.mem_cons, List.mem_singleton, List.not_mem_nil, or_false] at hc
    rcases hc with rfl | rfl | rfl | rfl
    · exact Or.inl (encodeByte_mem _)
    · exact Or.inl (encodeByte_mem _)
    · exact Or.inr rfl
    · exact Or.inr rfl
  | [_, _], c, hc => by
    simp only [encodeList, List.mem_cons, List.mem_singleton, List.not_mem_nil, or_false] at hc
    rcases hc with rfl | rfl | rfl | rfl
    · exact Or.inl (encodeByte_mem _)
    · exact Or.inl (encodeByte_mem _)
    · exact Or.inl (encodeByte_mem _)
    · exact Or.inr rfl
  | _ :: _ :: _ :: rest, c, hc => by
    simp only [encodeList, List.mem_cons] at hc
    rcases hc with rfl | rfl | rfl | rfl | hc
    · exact Or.inl (encodeByte_mem _)
    · exact Or.inl (encodeByte_mem _)
    · exact Or.inl (encodeByte_mem _)
    · exact Or.inl (encodeByte_mem _)
    · exact encodeList_alphabet rest c hc


/-! ## Lemmas on the map, the heap and the cookie functions -/

/-- After `m[k] = v` the entry under `k` is `v`. -/
theorem entryOf_mapAssign_self (k : String) (v : Value) :
    ∀ l : List (String × Value), entryOf k (mapAssign k v l) = some v
  | [] => by simp [mapAssign, entryOf]
  | (k0, v0) :: rest => by
    by_cases h : k0 = k
    · simp [mapAssign, entryOf, h]
    · simp [mapAssign, entryOf, h, entryOf_mapAssign_self k v rest]

/-- The assignment `m[k] = v` leaves the entry of every other key alone. -/
theorem entryOf_mapAssign_ne (k k1 : String) (v : Value) (hk : k1 ≠ k) :
    ∀ l : List (String × Value), entryOf k1 (mapAssign k v l) = entryOf k1 l
  | [] => by simp [mapAssign, entryOf, Ne.symm hk]
  | (k0, v0) :: rest => by
    by_cases h : k0 = k
    · subst h
      simp [mapAssign, entryOf, Ne.symm hk]
    · by_cases h1 : k0 = k1
      · subst h1
        simp [mapAssign, entryOf, h]
      · simp [mapAssign, entryOf, h, h1, entryOf_mapAssign_ne k k1 v hk rest]

/-- After `delete(m, k)` there is no entry under `k`. -/
theorem entryOf_removeKey_self (k : String) :
    ∀ l : List (String × Value), entryOf k (removeKey k l) = none
  | [] => rfl
  | (k0, v0) :: rest => by
    by_cases h : k0 = k
    · simp [removeKey, h, entryOf_removeKey_self k rest]
    · simp [removeKey, entryOf, h, entryOf_removeKey_self k rest]

/-- Deleting a key that has no entry leaves the entries as they are. -/
theorem removeKey_of_absent (k : String) :
    ∀ l : List (String × Value), entryOf k l = none → removeKey k l = l
  | [], _ => rfl
  | (k0, v0) :: rest, h => by
    by_cases h0 : k0 = k
    · simp [entryOf, h0] at h
    · simp only [entryOf, h0, if_false] at h
      simp [removeKey, h0, removeKey_of_absent k rest h]

/-- The two ways `New` ends: the refusal, or a new session appended to the heap with
its identifier and request set. -/
theorem New_eq (σ : State) (rnd : List Nat) (r : Request) (cookieName : String) :
    Manager.New σ rnd r cookieName =
      if (match r.Cookie cookieName with
          | .ok cookie => Manager.Exists σ cookie.Value
          | .err _ => false) then
        .returned (none, some ⟨"sessionIDはすでに発行されています"⟩) σ
      else
        .returned (some σ.heap.length, none)
          { σ with heap := σ.heap ++
              [{ cookieName := cookieName, ID := Manager.NewSessionID rnd,
                 request := some r, writer := none }] } := by
  unfold Manager.New
  split
  · rfl
  · simp [NewSession, State.update]


/-- An entry found by a lookup is a member of the entry list. -/
theorem entryOf_mem (k : String) (v : Value) :
    ∀ l : List (String × Value), entryOf k l = some v → (k, v) ∈ l
  | [], h => by simp [entryOf] at h
  | (k0, v0) :: rest, h => by
    by_cases h0 : k0 = k
    · simp only [entryOf, h0, if_true, Option.some.injEq] at h
      simp [h0, h]
    · simp only [entryOf, h0, if_false] at h
      exact List.mem_cons_of_mem _ (entryOf_mem k v rest h)

/-- In a store that holds only sessions, whatever a lookup finds is a pointer to an
allocated session. -/
theorem entry_is_live_session (σ : State) (h : holdsOnlySessions σ = true) (k : String)
    (v : Value) (hv : mapIndex σ.mg.database k = some v) :
    ∃ p s, v = .session (some p) ∧ σ.heap[p]? = some s := by
  unfold holdsOnlySessions at h
  cases hdb : σ.mg.database with
  | none => simp [hdb, mapIndex] at hv
  | some l =>
    rw [hdb] at h hv
    have hmem := entryOf_mem k v l hv
    have hall := List.all_eq_true.mp h (k, v) hmem
    cases v with
    | other t => simp at hall
    | session q =>
      cases q with
      | none => simp [State.deref] at hall
      | some p =>
        cases hp : σ.heap[p]? with
        | none => simp [State.deref, hp] at hall
        | some s => exact ⟨p, s, rfl, hp⟩

/-- On a live writer `http.SetCookie` appends the cookie line, when there is one. -/
theorem SetCookie_live (σ : State) (i : Nat) (lines : List String) (c : Sessions.Cookie)
    (hl : σ.writers[i]? = some lines) :
    SetCookie σ (some i) c =
      some (if c.String ≠ "" then { σ with writers := σ.writers.set i (lines ++ [c.String]) }
        else σ) := by
  unfold SetCookie
  by_cases h : c.String = ""
  · simp [h]
  · simp [h, hl]

/-- The function `http.SetCookie` touches neither the manager nor the sessions. -/
theorem SetCookie_keeps_store (σ σ1 : State) (w : Option Nat) (c : Sessions.Cookie)
    (h : SetCookie σ w c = some σ1) : σ1.mg = σ.mg ∧ σ1.heap = σ.heap := by
  unfold SetCookie at h
  by_cases hv : c.String = ""
  · simp only [hv, ne_eq, not_true_eq_false, if_false, Option.some.injEq] at h
    subst h
    exact ⟨rfl, rfl⟩
  · simp only [ne_eq, hv, not_false_eq_true, if_true] at h
    cases w with
    | none => simp at h
    | some i =>
      cases hl : σ.writers[i]? with
      | none => simp [hl] at h
      | some lines =>
        simp only [hl, Option.some.injEq] at h
        subst h
        exact ⟨rfl, rfl⟩

/-- On a made map, the state `Save` leaves behind, returning or panicking, has the
session stored under its identifier and the heap unchanged. -/
theorem Save_state_store (σ : State) (r : Request) (w : Option Nat) (p : Nat) (s : Session)
    (db : List (String × Value)) (hs : σ.heap[p]? = some s)
    (hdb : σ.mg.database = some db) :
    (Manager.Save σ r w (some p)).state.mg.database =
      some (mapAssign s.ID (.session (some p)) db) ∧
    (Manager.Save σ r w (some p)).state.heap = σ.heap := by
  unfold Manager.Save
  simp only [State.deref, hs, hdb]
  cases hc : SetCookie
      { σ with mg := { database := some (mapAssign s.ID (.session (some p)) db) } }
      s.writer { Name := s.Name, Value := s.ID, Path := "/" } with
  | none => simp [Outcome.state]
  | some σ2 =>
    have h := SetCookie_keeps_store _ _ _ _ hc
    simp [Outcome.state, h.1, h.2]

/-- Appending a non-empty string gives a non-empty string. -/
theorem String_append_ne_empty (a b : String) (hb : b ≠ "") : a ++ b ≠ "" := by
  intro h
  have h1 : (a ++ b).length = 0 := by rw [h]; rfl
  rw [String.length_append] at h1
  have h2 : b.length = 0 := by omega
  apply hb
  cases b with
  | mk l =>
    have hl : l = [] := List.length_eq_zero.mp h2
    subst hl
    rfl

/-- The `Set-Cookie` line of the cookie that `Save` builds, for a valid cookie name. -/
theorem Cookie_String_of_valid (name value : String) (hname : isCookieNameValid name = true) :
    Cookie.String { Name := name, Value := value, Path := "/" } =
      name ++ "=" ++ sanitizeCookieValue value ++ "; Path=/" ∧
    Cookie.String { Name := name, Value := value, Path := "/" } ≠ "" := by
  have hp : sanitizeCookiePath "/" = "/" := by decide
  have hl : ("/" : String).length > 0 := by decide
  have e : Cookie.String { Name := name, Value := value, Path := "/" } =
      name ++ "=" ++ sanitizeCookieValue value ++ "; Path=/" := by
    simp only [Cookie.String, hname, if_true, hl, hp]
    rfl
  refine ⟨e, ?_⟩
  rw [e]
  exact String_append_ne_empty _ _ (by decide)

/-- A plain cookie value is left as it is by `sanitizeCookieValue`. -/
theorem sanitize_plain (v : String) (h : plainCookieValue v = true) :
    sanitizeCookieValue v = v := by
  unfold plainCookieValue at h
  simp only [Bool.and_eq_true, Bool.not_eq_true'] at h
  obtain ⟨hall, hany⟩ := h
  have hf : v.toList.filter validCookieValueByte = v.toList :=
    List.filter_eq_self.mpr (fun c hc => List.all_eq_true.mp hall c hc)
  unfold sanitizeCookieValue
  simp only [hf, hany]
  simp

/-- On a made map and for a session with a live writer, `Save` returns nil. -/
theorem Save_returns_of_live_writer (σ : State) (r : Request) (w : Option Nat) (p : Nat)
    (s : Session) (db : List (String × Value)) (i : Nat) (lines : List String)
    (hs : σ.heap[p]? = some s) (hdb : σ.mg.database = some db)
    (hw : s.writer = some i) (hl : σ.writers[i]? = some lines) :
    ∃ σ1, Manager.Save σ r w (some p) = .returned none σ1 := by
  unfold Manager.Save
  simp only [State.deref, hs, hdb, hw]
  rw [SetCookie_live
    { σ with mg := { database := some (mapAssign s.ID (.session (some p)) db) } } i lines _
    hl]
  exact ⟨_, rfl⟩

/-- Every identifier that `NewSessionID` can produce is a plain cookie value, which
`sanitizeCookieValue` leaves as it is. -/
theorem generated_ID_is_plain (rnd : List Nat) :
    plainCookieValue (Manager.NewSessionID rnd) = true := by
  unfold Manager.NewSessionID
  cases ReadFull rnd 64 with
  | none => decide
  | some b =>
    have halpha : ∀ c ∈ encodeURL.toList,
        validCookieValueByte c = true ∧
          (decide (c.toNat = 32) || decide (c.toNat = 44)) = false := by decide
    have hpad : validCookieValueByte '=' = true ∧
        (decide (('=' : Char).toNat = 32) || decide (('=' : Char).toNat = 44)) = false := by
      decide
    have hchar : ∀ c ∈ encodeList b, validCookieValueByte c = true ∧
        (decide (c.toNat = 32) || decide (c.toNat = 44)) = false := by
      intro c hc
      rcases encodeList_alphabet b c hc with h | h
      · exact halpha c h
      · rw [h]; exact hpad
    unfold plainCookieValue EncodeToString
    simp only [Bool.and_eq_true, Bool.not_eq_true', List.all_eq_true, List.any_eq_false]
    exact ⟨fun c hc => (hchar c hc).1, fun c hc => by simp [(hchar c hc).2]⟩

/-! ## Claims -/

/-- C1. `Manager.New(r, n)` returns an error exactly when the cookie named `n` of `r`
has a value that is a key of the store, and then it returns no session and leaves the
state as it was; in every other case it returns a session and a nil error. -/
theorem New_error_iff_cookie_in_store (σ : State) (rnd : List Nat) (r : Request)
    (n : String) :
    ((∃ s e σ1, Manager.New σ rnd r n = .returned (s, some e) σ1) ↔
      (∃ c, r.Cookie n = .ok c ∧ Manager.Exists σ c.Value = true)) ∧
    (∀ s e σ1, Manager.New σ rnd r n = .returned (s, some e) σ1 → s = none ∧ σ1 = σ) ∧
    ((¬ ∃ c, r.Cookie n = .ok c ∧ Manager.Exists σ c.Value = true) →
      ∃ p σ1, Manager.New σ rnd r n = .returned (some p, none) σ1) := by
  rw [New_eq]
  cases hc : r.Cookie n with
  | err e0 => simp
  | ok c =>
    cases hx : Manager.Exists σ c.Value with
    | false => simp [hx]
    | true => simp [hx]

/-- C1, at concrete inputs: a request carrying `sid=abc` is refused when `abc` is
stored, and a request without cookie obtains a session. -/
theorem New_error_iff_cookie_in_store_witness :
    (∃ s e σ1, Manager.New storedState sampleBlock (requestWith "sid" "abc") "sid" =
      .returned (s, some e) σ1) ∧
    (∃ p σ1, Manager.New storedState sampleBlock bareRequest "sid" =
      .returned (some p, none) σ1) :=
  ⟨(New_error_iff_cookie_in_store storedState sampleBlock (requestWith "sid" "abc") "sid").1.2
      ⟨⟨"sid", "abc", ""⟩, by decide, by decide⟩,
   (New_error_iff_cookie_in_store storedState sampleBlock bareRequest "sid").2.2
      (fun ⟨_, hc, _⟩ => by simp [Request.Cookie, bareRequest] at hc)⟩

/-- C2, as stated, fails: on the manager whose map is still nil, `Save` panics before
anything is stored, and a `Get` on a request carrying `sid=abc`, the cookie `Save` was to
write, then returns the error "invalid session id"; and on a made map, for a session
without writer, `Save` does not return either: it panics in `http.SetCookie`. -/
theorem Save_then_Get_not_for_every_state :
    Manager.Save nilMapState bareRequest (some 1) (some 0) =
      .panicked nilMapAssignment nilMapState ∧
    Manager.Get (Manager.Save nilMapState bareRequest (some 1) (some 0)).state
      (requestWith "sid" "abc") "sid" =
      .returned (none, some ⟨"無効なセッションIDです"⟩) nilMapState ∧
    (¬ ∃ σ1, Manager.Save noWriterState bareRequest (some 1) (some 0) = .returned none σ1) := by
  refine ⟨by decide, by decide, ?_⟩
  rintro ⟨σ1, h⟩
  exact absurd h (by
    have hp : Manager.Save noWriterState bareRequest (some 1) (some 0) =
        .panicked nilDereference
          { noWriterState with mg := { database := some [("abc", .session (some 0))] } } := by
      decide
    rw [hp]
    exact fun hh => Outcome.noConfusion hh)

/-- C2, amended. On a manager whose map is made, for a session `s` whose writer is a live
response writer: `Manager.Save(r, w, s)` returns a nil error, and then
`Manager.Get(r2, s.Name())`, on any request `r2` whose cookie named `s.Name()` has the
value `s.ID`, returns a nil error and the same session, with its `ID` equal to `s.ID`
and `r2` attached. -/
theorem Save_then_Get_round_trip (σ : State) (r r2 : Request) (w : Option Nat) (p : Nat)
    (s : Session) (db : List (String × Value)) (i : Nat) (lines : List String)
    (c : Sessions.Cookie) (hs : σ.heap[p]? = some s) (hdb : σ.mg.database = some db)
    (hw : s.writer = some i) (hl : σ.writers[i]? = some lines)
    (hc : r2.Cookie s.Name = .ok c) (hval : c.Value = s.ID) :
    ∃ σ1 σ2, Manager.Save σ r w (some p) = .returned none σ1 ∧
      Manager.Get σ1 r2 s.Name = .returned (some p, none) σ2 ∧
      σ2.heap[p]? = some { s with request := some r2 } ∧
      (σ2.heap[p]?).map Session.ID = some s.ID := by
  obtain ⟨σ1, h1⟩ := (Save_returns_of_live_writer σ r w p s db i lines hs hdb hw hl)
  have hst := Save_state_store σ r w p s db hs hdb
  rw [h1] at hst
  simp only [Outcome.state] at hst
  have hidx : mapIndex σ1.mg.database c.Value = some (.session (some p)) := by
    rw [hst.1, hval]
    exact entryOf_mapAssign_self s.ID (.session (some p)) db
  have hp1 : σ1.heap[p]? = some s := by rw [hst.2]; exact hs
  have hlt : p < σ1.heap.length := by
    rcases List.getElem?_eq_some_iff.mp hp1 with ⟨hlt, _⟩
    exact hlt
  refine ⟨σ1, { σ1 with heap := σ1.heap.set p { s with request := some r2 } }, h1, ?_, ?_, ?_⟩
  · unfold Manager.Get
    simp [hc, hidx, State.update, hp1]
  · simp [hlt]
  · simp [hlt]

/-- C2 amended, at a concrete state: the session `abc` under the cookie name `sid`. -/
theorem Save_then_Get_round_trip_witness :
    ∃ σ1 σ2, Manager.Save madeState bareRequest (some 0) (some 0) = .returned none σ1 ∧
      Manager.Get σ1 (requestWith "sid" "abc") sampleSession.Name =
        .returned (some 0, none) σ2 ∧
      σ2.heap[0]? = some { sampleSession with request := some (requestWith "sid" "abc") } ∧
      (σ2.heap[0]?).map Session.ID = some sampleSession.ID :=
  Save_then_Get_round_trip madeState bareRequest (requestWith "sid" "abc") (some 0) 0
    sampleSession [] 1 [] ⟨"sid", "abc", ""⟩ (by decide) (by decide) (by decide) (by decide)
    (by decide) (by decide)

/-- C3. `Manager.Get(r, n)` fails, that is returns an error, in exactly two ways: without
a cookie named `n` it returns no session and the error of the cookie read itself; with
a cookie whose value is not a key of the store it returns no session and the error
"invalid session id". Both leave the state, the store included, as it was. The
unchecked type assertion stays out of both cases: it can only panic once the key has
been found, on an entry that is not a pointer to an allocated session. -/
theorem Get_fails_in_two_ways (σ : State) (r : Request) (n : String) :
    (∀ e, r.Cookie n = .err e → Manager.Get σ r n = .returned (none, some e) σ) ∧
    (∀ c, r.Cookie n = .ok c → Manager.Exists σ c.Value = false →
      Manager.Get σ r n = .returned (none, some ⟨"無効なセッションIDです"⟩) σ) ∧
    (∀ s e σ1, Manager.Get σ r n = .returned (s, some e) σ1 →
      s = none ∧ σ1 = σ ∧
      (r.Cookie n = .err e ∨
        ∃ c, r.Cookie n = .ok c ∧ Manager.Exists σ c.Value = false ∧
          e = ⟨"無効なセッションIDです"⟩)) ∧
    (∀ reason σ1, Manager.Get σ r n = .panicked reason σ1 →
      σ1 = σ ∧ ∃ c v, r.Cookie n = .ok c ∧ mapIndex σ.mg.database c.Value = some v ∧
        ∀ p, v = .session p → σ.deref p = none) := by
  unfold Manager.Get Manager.Exists
  cases hc : r.Cookie n with
  | err e0 => simp
  | ok c =>
    cases hv : mapIndex σ.mg.database c.Value with
    | none => simp [hv]
    | some v =>
      cases v with
      | other t => simp [hv]
      | session q =>
        cases q with
        | none => simp [hv, State.update, State.deref]
        | some p =>
          cases hp : σ.heap[p]? with
          | none => simp [hv, State.update, State.deref, hp]
          | some s0 => simp [hv, State.update, hp]

/-- C3, at concrete inputs: a request without the cookie, and a request whose cookie
value is not stored. -/
theorem Get_fails_in_two_ways_witness :
    Manager.Get storedState bareRequest "sid" = .returned (none, some ErrNoCookie) storedState ∧
    Manager.Get storedState (requestWith "sid" "xyz") "sid" =
      .returned (none, some ⟨"無効なセッションIDです"⟩) storedState :=
  ⟨(Get_fails_in_two_ways storedState bareRequest "sid").1 ErrNoCookie (by decide),
   (Get_fails_in_two_ways storedState (requestWith "sid" "xyz") "sid").2.1
      ⟨"sid", "xyz", ""⟩ (by decide) (by decide)⟩

/-- C4. After `Manager.Destroy(id)`, `Manager.Exists(id)` is false; and when `id` is not
a key of the store, `Destroy(id)` leaves the whole state as it was. `Destroy` has no
failing path: it is a total function of the state. -/
theorem Destroy_then_not_Exists (σ : State) (id : String) :
    Manager.Exists (Manager.Destroy σ id) id = false ∧
    (Manager.Exists σ id = false → Manager.Destroy σ id = σ) := by
  obtain ⟨⟨db⟩, heap, writers⟩ := σ
  cases db with
  | none => simp [Manager.Exists, Manager.Destroy, mapDelete, mapIndex]
  | some l =>
    refine ⟨?_, ?_⟩
    · simp [Manager.Exists, Manager.Destroy, mapDelete, mapIndex, entryOf_removeKey_self]
    · intro h
      have h1 : entryOf id l = none := by
        simpa [Manager.Exists, mapIndex] using h
      simp [Manager.Destroy, mapDelete, removeKey_of_absent id l h1]

/-- C4, at concrete inputs: destroying the stored key `abc`, and destroying the
absent key `xyz`. -/
theorem Destroy_then_not_Exists_witness :
    Manager.Exists (Manager.Destroy storedState "abc") "abc" = false ∧
    Manager.Destroy storedState "xyz" = storedState :=
  ⟨(Destroy_then_not_Exists storedState "abc").1,
   (Destroy_then_not_Exists storedState "xyz").2 (by decide)⟩

/-- C5, as stated, fails: on the manager whose map is still nil `Save` panics on the map
assignment and stores nothing; on a made map with a session that has no writer, the
entry is stored and the call then panics in `http.SetCookie`. Neither returns nil. -/
theorem Save_not_for_every_input :
    Manager.Save nilMapState bareRequest (some 0) (some 0) =
      .panicked nilMapAssignment nilMapState ∧
    Manager.Exists (Manager.Save nilMapState bareRequest (some 0) (some 0)).state "abc" = false ∧
    Manager.Save noWriterState bareRequest (some 0) (some 0) =
      .panicked nilDereference
        { noWriterState with mg := { database := some [("abc", .session (some 0))] } } := by
  decide

/-- C5, amended. On a manager whose map is made, `Manager.Save(r, w, s)` leaves `s` stored
under the key `s.ID`, whatever was stored there before, and leaves the entry of every
other key as it was; and it returns a nil error when `s.writer` is a live response
writer. -/
theorem Save_stores_on_made_map (σ : State) (r : Request) (w : Option Nat) (p : Nat)
    (s : Session) (db : List (String × Value)) (hs : σ.heap[p]? = some s)
    (hdb : σ.mg.database = some db) :
    mapIndex (Manager.Save σ r w (some p)).state.mg.database s.ID =
      some (.session (some p)) ∧
    (∀ k, k ≠ s.ID →
      mapIndex (Manager.Save σ r w (some p)).state.mg.database k =
        mapIndex σ.mg.database k) ∧
    (∀ i lines, s.writer = some i → σ.writers[i]? = some lines →
      ∃ σ1, Manager.Save σ r w (some p) = .returned none σ1) := by
  have hst := (Save_state_store σ r w p s db hs hdb).1
  refine ⟨?_, ?_, ?_⟩
  · rw [hst]
    exact entryOf_mapAssign_self s.ID (.session (some p)) db
  · intro k hk
    rw [hst, hdb]
    exact entryOf_mapAssign_ne s.ID k (.session (some p)) hk db
  · intro i lines hw hl
    exact Save_returns_of_live_writer σ r w p s db i lines hs hdb hw hl

/-- C5 amended, at a concrete state: the session `abc` saved over an older entry under
the same key, next to an entry under another key. -/
theorem Save_stores_on_made_map_witness :
    mapIndex (Manager.Save
      { storedState with mg := { database := some [("abc", .other 7), ("k", .other 9)] } }
      bareRequest none (some 0)).state.mg.database "abc" = some (.session (some 0)) ∧
    mapIndex (Manager.Save
      { storedState with mg := { database := some [("abc", .other 7), ("k", .other 9)] } }
      bareRequest none (some 0)).state.mg.database "k" = some (.other 9) ∧
    (∃ σ1, Manager.Save
      { storedState with mg := { database := some [("abc", .other 7), ("k", .other 9)] } }
      bareRequest none (some 0) = .returned none σ1) :=
  have h := Save_stores_on_made_map
    { storedState with mg := { database := some [("abc", .other 7), ("k", .other 9)] } }
    bareRequest none 0 sampleSession [("abc", .other 7), ("k", .other 9)] (by decide)
    (by decide)
  ⟨h.1, (h.2.1 "k" (by decide)).trans (by decide), h.2.2 1 [] (by decide) (by decide)⟩

/-- C6, as stated, fails: `Save` called with the response writer 0, for a session whose
own writer is writer 1, returns nil and leaves writer 0 without any cookie; the cookie
is on writer 1. -/
theorem Save_ignores_given_writer :
    Manager.Save madeState bareRequest (some 0) (some 0) =
      .returned none
        { madeState with
          mg := { database := some [("abc", .session (some 0))] },
          writers := [[], ["sid=abc; Path=/"]] } ∧
    (Manager.Save madeState bareRequest (some 0) (some 0)).state.writers[0]? = some [] := by
  decide

/-- C6, amended. `Manager.Save(r, w, s)` attaches its cookie to the session's own writer
`s.writer`, not to the argument `w`: on a made map, with `s.writer` a live response writer
and `s.Name()` a valid cookie name, it returns nil having added to that writer exactly
one `Set-Cookie` line, made of `s.Name()`, `=`, the value `s.ID` as net/http sanitises it
(`s.ID` itself when it is a plain cookie value) and `; Path=/`, with no other attribute;
every other writer keeps its lines. -/
theorem Save_sets_cookie_on_session_writer (σ : State) (r : Request) (w : Option Nat)
    (p : Nat) (s : Session) (db : List (String × Value)) (i : Nat) (lines : List String)
    (hs : σ.heap[p]? = some s) (hdb : σ.mg.database = some db)
    (hw : s.writer = some i) (hl : σ.writers[i]? = some lines)
    (hname : isCookieNameValid s.Name = true) :
    ∃ σ1, Manager.Save σ r w (some p) = .returned none σ1 ∧
      σ1.writers[i]? =
        some (lines ++ [s.Name ++ "=" ++ sanitizeCookieValue s.ID ++ "; Path=/"]) ∧
      (∀ j, j ≠ i → σ1.writers[j]? = σ.writers[j]?) ∧
      (plainCookieValue s.ID = true → sanitizeCookieValue s.ID = s.ID) := by
  have hstr := Cookie_String_of_valid s.Name s.ID hname
  have hlt : i < σ.writers.length := by
    rcases List.getElem?_eq_some_iff.mp hl with ⟨hlt, _⟩
    exact hlt
  refine ⟨{ σ with
      mg := { database := some (mapAssign s.ID (.session (some p)) db) },
      writers := σ.writers.set i
        (lines ++ [s.Name ++ "=" ++ sanitizeCookieValue s.ID ++ "; Path=/"]) },
    ?_, ?_, ?_, sanitize_plain s.ID⟩
  · unfold Manager.Save
    simp only [State.deref, hs, hdb, hw]
    rw [SetCookie_live
      { σ with mg := { database := some (mapAssign s.ID (.session (some p)) db) } } i lines _
      hl]
    rw [if_pos hstr.2, hstr.1]
  · simp [hlt]
  · intro j hj
    simp [List.getElem?_set, Ne.symm hj]

/-- C6 amended, at a concrete state: the session `abc` under the name `sid`, whose
writer is writer 1, saved with writer 0 as argument. -/
theorem Save_sets_cookie_on_session_writer_witness :
    ∃ σ1, Manager.Save madeState bareRequest (some 0) (some 0) = .returned none σ1 ∧
      σ1.writers[1]? =
        some ([] ++ [sampleSession.Name ++ "=" ++ sanitizeCookieValue sampleSession.ID ++
          "; Path=/"]) ∧
      (∀ j, j ≠ 1 → σ1.writers[j]? = madeState.writers[j]?) ∧
      (plainCookieValue sampleSession.ID = true →
        sanitizeCookieValue sampleSession.ID = sampleSession.ID) :=
  Save_sets_cookie_on_session_writer madeState bareRequest (some 0) 0 sampleSession [] 1 []
    (by decide) (by decide) (by decide) (by decide) (by decide)

/-- C7, as stated, fails: with a store that already lists the identifier encoding
`sampleBlock`, a `New` that draws the same block succeeds and returns a session whose
`ID` is a key of the store when `New` returns; and with a store that lists the empty
string, so does a `New` whose random source fails. -/
theorem New_ID_may_be_listed :
    (∃ σ1, Manager.New collisionState sampleBlock bareRequest "sid" =
      .returned (some 1, none) σ1) ∧
    ((Manager.New collisionState sampleBlock bareRequest "sid").state.heap[1]?).map
      Session.ID = some (Manager.NewSessionID sampleBlock) ∧
    Manager.Exists (Manager.New collisionState sampleBlock bareRequest "sid").state
      (Manager.NewSessionID sampleBlock) = true ∧
    (∃ σ1, Manager.New emptyKeyState [] bareRequest "sid" = .returned (some 1, none) σ1) ∧
    ((Manager.New emptyKeyState [] bareRequest "sid").state.heap[1]?).map
      Session.ID = some "" ∧
    Manager.Exists (Manager.New emptyKeyState [] bareRequest "sid").state "" = true := by
  refine ⟨⟨_, New_eq _ _ _ _⟩, ?_, ?_, ⟨_, New_eq _ _ _ _⟩, ?_, ?_⟩ <;> decide

/-- C7, amended. Whenever `Manager.New(r, n)` succeeds, the session it returns is a newly
allocated object with the request `r` attached and with `ID` equal to what
`NewSessionID` produced from the random draw. `New` leaves the store as it was and does
not look the new identifier up in it: the identifier is a key of the store on return
exactly when it was one before the call. -/
theorem New_session_has_request_and_fresh_ID (σ σ1 : State) (rnd : List Nat) (r : Request)
    (n : String) (p : Nat) (h : Manager.New σ rnd r n = .returned (some p, none) σ1) :
    σ.heap[p]? = none ∧
    (∃ s, σ1.heap[p]? = some s ∧ s.request = some r ∧ s.ID = Manager.NewSessionID rnd) ∧
    σ1.mg = σ.mg ∧
    Manager.Exists σ1 (Manager.NewSessionID rnd) =
      Manager.Exists σ (Manager.NewSessionID rnd) := by
  rw [New_eq] at h
  split at h
  · simp at h
  · simp only [Outcome.returned.injEq, Prod.mk.injEq, Option.some.injEq, and_true] at h
    obtain ⟨hp, hσ⟩ := h
    subst hp
    subst hσ
    refine ⟨?_, ⟨⟨n, Manager.NewSessionID rnd, some r, none⟩, ?_, rfl, rfl⟩, rfl, rfl⟩
    · simp
    · simp

/-- C7 amended, at a concrete call: a request without cookie, on a store holding `abc`. -/
theorem New_session_has_request_and_fresh_ID_witness :
    storedState.heap[1]? = none ∧
    (∃ s, (Manager.New storedState sampleBlock bareRequest "sid").state.heap[1]? = some s ∧
      s.request = some bareRequest ∧ s.ID = Manager.NewSessionID sampleBlock) ∧
    (Manager.New storedState sampleBlock bareRequest "sid").state.mg = storedState.mg ∧
    Manager.Exists (Manager.New storedState sampleBlock bareRequest "sid").state
        (Manager.NewSessionID sampleBlock) =
      Manager.Exists storedState (Manager.NewSessionID sampleBlock) :=
  New_session_has_request_and_fresh_ID storedState
    (Manager.New storedState sampleBlock bareRequest "sid").state sampleBlock bareRequest
    "sid" 1 (by decide)

/-- C9. The scenario on the manager that `NewManager` returns, its map as the package
leaves it (nil): `New` succeeds and returns the session at address 0, the store being
empty; the following `Save` of that session panics on the assignment into the nil map,
whatever request and writer it is given, so no cookie is written and the identifier
is not stored; a `Get` on the request carrying the identifier then returns the error
"invalid session id". -/
theorem scenario_Save_panics_on_nil_map (writers : List (List String)) (rnd : List Nat)
    (r r1 : Request) (w : Option Nat) :
    NewManager (packageInit writers) = { database := none } ∧
    (∃ σ1, Manager.New (packageInit writers) rnd r "sid" = .returned (some 0, none) σ1) ∧
    Manager.Save (Manager.New (packageInit writers) rnd r "sid").state r1 w (some 0) =
      .panicked nilMapAssignment (Manager.New (packageInit writers) rnd r "sid").state ∧
    (Manager.New (packageInit writers) rnd r "sid").state.writers = writers ∧
    Manager.Exists (Manager.New (packageInit writers) rnd r "sid").state
      (Manager.NewSessionID rnd) = false ∧
    Manager.Get (Manager.New (packageInit writers) rnd r "sid").state
        (requestWith "sid" (Manager.NewSessionID rnd)) "sid" =
      .returned (none, some ⟨"無効なセッションIDです"⟩)
        (Manager.New (packageInit writers) rnd r "sid").state := by
  have hx : ∀ v, Manager.Exists (packageInit writers) v = false := fun _ => rfl
  have hcond : (match r.Cookie "sid" with
      | .ok cookie => Manager.Exists (packageInit writers) cookie.Value
      | .err _ => false) = false := by
    cases r.Cookie "sid" <;> simp [hx]
  rw [New_eq, hcond]
  simp [NewManager, packageInit, mg, Manager.Save, Manager.Exists, Manager.Get, mapIndex,
    Outcome.state, Request.Cookie, requestWith, State.deref]

/-- The scenario of C9 on a map that has been made: the session that `New` returns has
no writer (the modelled constructor has none to give it and `New` attaches only the
request), so `Save` stores it and then panics inside `http.SetCookie`. -/
theorem scenario_on_made_map_needs_writer :
    Manager.Save (Manager.New { madeState with heap := [] } sampleBlock bareRequest
        "sid").state bareRequest (some 0) (some 0) =
      .panicked nilDereference
        { mg := { database := some [(Manager.NewSessionID sampleBlock, .session (some 0))] },
          heap := [{ cookieName := "sid", ID := Manager.NewSessionID sampleBlock,
                     request := some bareRequest, writer := none }],
          writers := [[], []] } := by
  decide

/-- C8. `Manager.NewSessionID` as a function of what the random source yields: when the
source delivers the 64-byte block `b`, the result is the URL-safe base64 encoding of
`b`, it is 88 characters long, every character is in the URL-safe alphabet or is `=`,
and it decodes back to `b`; when the source fails before 64 bytes, the result is the
empty string. -/
theorem NewSessionID_of_block (b more : List Nat) (hlen : b.length = 64)
    (hbytes : ∀ x ∈ b, x < 256) :
    Manager.NewSessionID (b ++ more) = EncodeToString b ∧
    (Manager.NewSessionID (b ++ more)).length = 88 ∧
    (∀ c ∈ (Manager.NewSessionID (b ++ more)).toList, c ∈ encodeURL.toList ∨ c = '=') ∧
    DecodeString (Manager.NewSessionID (b ++ more)) = some b ∧
    (∀ short : List Nat, short.length < 64 → Manager.NewSessionID short = "") := by
  have hid : Manager.NewSessionID (b ++ more) = EncodeToString b := by
    simp [Manager.NewSessionID, ReadFull, hlen, List.take_append_of_le_length]
  refine ⟨hid, ?_, ?_, ?_, ?_⟩
  · rw [hid]
    simp [EncodeToString, String.length, encodeList_length, hlen]
  · rw [hid]
    exact fun c hc => encodeList_alphabet b c hc
  · rw [hid]
    exact decodeList_encodeList b hbytes
  · intro short hshort
    simp [Manager.NewSessionID, ReadFull, Nat.not_le.mpr hshort]

/-- C8, at a concrete block: the bytes 0, 1, ..., 63. -/
theorem NewSessionID_of_block_witness :
    Manager.NewSessionID (sampleBlock ++ []) = EncodeToString sampleBlock ∧
    (Manager.NewSessionID (sampleBlock ++ [])).length = 88 ∧
    (∀ c ∈ (Manager.NewSessionID (sampleBlock ++ [])).toList,
      c ∈ encodeURL.toList ∨ c = '=') ∧
    DecodeString (Manager.NewSessionID (sampleBlock ++ [])) = some sampleBlock ∧
    (∀ short : List Nat, short.length < 64 → Manager.NewSessionID short = "") :=
  NewSessionID_of_block sampleBlock [] (by decide) (by decide)

/-- C10. On a state whose store holds only sessions, `Manager.New(r, n)` returns an
error exactly when `Manager.Get(r, n)` returns a session with a nil error, for every
request `r` and cookie name `n`; and both calls leave the map of the store, hence its
set of keys, as it was. -/
theorem New_errs_iff_Get_succeeds (σ : State) (rnd : List Nat) (r : Request) (n : String)
    (h : holdsOnlySessions σ = true) :
    ((∃ s e σ1, Manager.New σ rnd r n = .returned (s, some e) σ1) ↔
      (∃ p σ1, Manager.Get σ r n = .returned (some p, none) σ1)) ∧
    mapKeys (Manager.New σ rnd r n).state.mg.database = mapKeys σ.mg.database ∧
    mapKeys (Manager.Get σ r n).state.mg.database = mapKeys σ.mg.database := by
  rw [New_eq]
  unfold Manager.Get Manager.Exists
  cases hc : r.Cookie n with
  | err e0 => simp [Outcome.state]
  | ok c =>
    cases hv : mapIndex σ.mg.database c.Value with
    | none => simp [hv, Outcome.state]
    | some v =>
      obtain ⟨p, s0, rfl, hp⟩ := entry_is_live_session σ h c.Value v hv
      simp [hv, State.update, hp, Outcome.state]

/-- C10, at a concrete state holding one session under the key `abc`. -/
theorem New_errs_iff_Get_succeeds_witness :
    holdsOnlySessions storedState = true ∧
    ((∃ s e σ1, Manager.New storedState sampleBlock (requestWith "sid" "abc") "sid" =
        .returned (s, some e) σ1) ↔
      (∃ p σ1, Manager.Get storedState (requestWith "sid" "abc") "sid" =
        .returned (some p, none) σ1)) ∧
    mapKeys (Manager.New storedState sampleBlock (requestWith "sid" "abc")
      "sid").state.mg.database = mapKeys storedState.mg.database ∧
    mapKeys (Manager.Get storedState (requestWith "sid" "abc") "sid").state.mg.database =
      mapKeys storedState.mg.database :=
  ⟨by decide,
   New_errs_iff_Get_succeeds storedState sampleBlock (requestWith "sid" "abc") "sid"
     (by decide)⟩

end Sessions
